import Mathlib

/-!
Shallow embedding of the quickfile-mcp API client core
(`src/api/client.ts` and `src/api/auth.ts`).

JSON values are modelled by an inductive `Json`; JavaScript `undefined` is
modelled as `Option.none` at the points where the source can observe it
(member access, truthiness tests).  Thrown JavaScript values are modelled by
`Thrown`: the repository's own `QuickFileApiError`, a generic `Error`
(carrying its `name` and `message`, covering `TypeError`, `AbortError`,
`SyntaxError`, network errors), or a thrown non-`Error` value.
-/

namespace QuickFile

/-- JSON values (numbers restricted to integers, which covers every value the
claims exercise). -/
inductive Json where
  | null
  | bool (b : Bool)
  | num (n : Int)
  | str (s : String)
  | arr (elems : List Json)
  | obj (fields : List (String × Json))

/-- First binding of a key in an object's field list (JSON objects produced by
`JSON.parse` have unique keys, so "first" is exact). -/
def lookupField (fields : List (String × Json)) (key : String) : Option Json :=
  (fields.find? (fun p => p.1 = key)).map (fun p => p.2)

/-- A thrown JavaScript value as the client's `catch` observes it. -/
inductive Thrown where
  | apiError (message code : String)
  | jsError (name message : String)
  | other

/-- The repository's `QuickFileApiError` payload: `message` and `code`. -/
structure ClientError where
  message : String
  code : String
deriving DecidableEq

/-- JavaScript truthiness of a possibly-`undefined` value. -/
def truthy : Option Json → Bool
  | none => false
  | some Json.null => false
  | some (Json.bool b) => b
  | some (Json.num n) => n != 0
  | some (Json.str s) => s != ""
  | some (Json.arr _) => true
  | some (Json.obj _) => true

/-- `Array.isArray` on a possibly-`undefined` value. -/
def isArrayVal : Option Json → Bool
  | some (Json.arr _) => true
  | _ => false

/-- `typeof x === "object"` on a possibly-`undefined` value: true for objects,
arrays and `null`. -/
def typeofObject : Option Json → Bool
  | some Json.null => true
  | some (Json.arr _) => true
  | some (Json.obj _) => true
  | _ => false

/-- Parse a string of decimal digits as a numeric property index. -/
def digitsToNat? (cs : List Char) : Option Nat :=
  match cs with
  | [] => none
  | _ =>
      cs.foldl (fun acc c =>
        acc.bind (fun n => if c.isDigit then some (n * 10 + (c.toNat - 48)) else none))
        (some 0)

/-- Pure JavaScript member access `v[key]` for a non-null base: object key
lookup, numeric index into arrays and strings, `undefined` otherwise. -/
def jsIndex : Json → String → Option Json
  | Json.obj fields, key => lookupField fields key
  | Json.arr elems, key => (digitsToNat? key.data).bind (fun i => elems.get? i)
  | Json.str s, key =>
      (digitsToNat? key.data).bind (fun i => (s.data.get? i).map (fun c => Json.str (String.mk [c])))
  | _, _ => none

/-- Member access `v[key]` including the `TypeError` thrown on a `null` base. -/
def jsGet (v : Json) (key : String) : Except Thrown (Option Json) :=
  match v with
  | Json.null => .error (.jsError "TypeError" s!"Cannot read properties of null (reading {key})")
  | _ => .ok (jsIndex v key)

/-- `Object.keys`: field names of an object, index strings of an array or a
string, empty otherwise. -/
def objKeys : Json → List String
  | Json.obj fields => fields.map (fun p => p.1)
  | Json.arr elems => (List.range elems.length).map (fun i => toString i)
  | Json.str s => (List.range s.data.length).map (fun i => toString i)
  | _ => []

/-- The fallback key predicate of `extractResponseBody`:
`key !== "Errors" && typeof data[key] === "object" && !Array.isArray(data[key])`. -/
def fallbackPred (data : Json) (key : String) : Bool :=
  key != "Errors" && typeofObject (jsIndex data key) && !(isArrayVal (jsIndex data key))

/-- `extractResponseBody` from `src/api/client.ts`: prefer the exact
method-name key when its value is truthy and not an array; otherwise take the
first key passing `fallbackPred`; otherwise throw `PARSE_ERROR`.  The result
is the wrapper's `Body` member (`none` models `undefined`). -/
def extractResponseBody (data : Json) (methodName : String) :
    Except Thrown (Option Json) := do
  let methodResponse ← jsGet data methodName
  if truthy methodResponse && !(isArrayVal methodResponse) then
    match methodResponse with
    | some v => jsGet v "Body"
    | none => .ok none
  else
    match (objKeys data).find? (fallbackPred data) with
    | some responseKey =>
        match jsIndex data responseKey with
        | some v => jsGet v "Body"
        | none => .ok none
    | none => .error (.apiError "Invalid API response structure" "PARSE_ERROR")

/-- `Array.prototype.join` rendering of one element (`undefined`/`null` join
as the empty string). -/
def joinElem : Option Json → String
  | none => ""
  | some Json.null => ""
  | some (Json.bool b) => cond b "true" "false"
  | some (Json.num n) => toString n
  | some (Json.str s) => s
  | some (Json.arr _) => ""
  | some (Json.obj _) => "[object Object]"

/-- Rendering of the value stored into `QuickFileApiError.code` (a string in
every case the source produces; other JSON values are rendered for totality). -/
def jsRawToString : Option Json → String
  | none => "undefined"
  | some Json.null => "null"
  | some (Json.bool b) => cond b "true" "false"
  | some (Json.num n) => toString n
  | some (Json.str s) => s
  | some (Json.arr _) => ""
  | some (Json.obj _) => "[object Object]"

/-- `x.length > 0` for the vendor-errors guard (`undefined > 0` is false;
non-numeric `length` members are modelled as failing the comparison). -/
def lengthGtZero : Option Json → Bool
  | some (Json.arr elems) => elems.length != 0
  | some (Json.str s) => s.data.length != 0
  | some (Json.obj fields) =>
      match lookupField fields "length" with
      | some (Json.num n) => decide (0 < n)
      | _ => false
  | _ => false

/-- The vendor-error check of `QuickFileApiClient.request`:
`if (data.Errors && data.Errors.length > 0) throw new QuickFileApiError(
errors.map(e => e.ErrorMessage).join("; "), errors[0].ErrorCode)`. -/
def checkVendorErrors (data : Json) : Except Thrown PUnit := do
  let errsOpt ← jsGet data "Errors"
  if truthy errsOpt && lengthGtZero errsOpt then
    match errsOpt with
    | some (Json.arr errors) => do
        let messages ← errors.mapM (fun e => jsGet e "ErrorMessage")
        match errors with
        | [] => .ok ⟨⟩
        | e0 :: _ => do
            let codeVal ← jsGet e0 "ErrorCode"
            .error (.apiError (String.intercalate "; " (messages.map joinElem))
              (jsRawToString codeVal))
    | _ => .error (.jsError "TypeError" "errors.map is not a function")
  else
    .ok ⟨⟩

/-- Result of the JSON body parse of a fetched response. -/
inductive ParseResult where
  | parsed (data : Json)
  | failed (message : String)

/-- Outcome of the `fetch` call inside `request`: either `fetch` itself threw
(timeout abort, network failure, non-`Error` value), or a response arrived
with a status, a status text and a body. -/
inductive FetchOutcome where
  | threw (e : Thrown)
  | response (status : Nat) (statusText : String) (body : ParseResult)

/-- `Response.ok`: status in the inclusive range 200–299. -/
def responseOk (status : Nat) : Bool :=
  200 ≤ status && status ≤ 299

/-- The `try` block of `QuickFileApiClient.request` after the fetch outcome is
known: non-2xx throws the HTTP-status `QuickFileApiError`, then the body is
parsed, vendor errors are checked, and the body is extracted. -/
def requestTry (outcome : FetchOutcome) (methodName : String) :
    Except Thrown (Option Json) :=
  match outcome with
  | .threw e => .error e
  | .response status statusText body =>
      if !(responseOk status) then
        .error (.apiError s!"HTTP {status}: {statusText}" (toString status))
      else
        match body with
        | .failed message => .error (.jsError "SyntaxError" message)
        | .parsed data => do
            checkVendorErrors data
            extractResponseBody data methodName

/-- `handleRequestError` from `src/api/client.ts`. -/
def handleRequestError (error : Thrown) (timeout : Nat) : ClientError :=
  match error with
  | .apiError message code => ⟨message, code⟩
  | .jsError name message =>
      if name = "AbortError" then ⟨s!"Request timeout after {timeout}ms", "TIMEOUT"⟩
      else ⟨message, "NETWORK_ERROR"⟩
  | .other => ⟨"Unknown error occurred", "UNKNOWN"⟩

/-- `QuickFileApiClient.request`: run the try block, classify anything thrown
through `handleRequestError`. -/
def request (outcome : FetchOutcome) (methodName : String) (timeout : Nat) :
    Except ClientError (Option Json) :=
  match requestTry outcome methodName with
  | .ok v => .ok v
  | .error e => .error (handleRequestError e timeout)


/-! ### Helper lemmas -/

theorem lookupField_of_mem_keys {fields : List (String × Json)} {k : String}
    (hk : k ∈ fields.map Prod.fst) : ∃ v, lookupField fields k = some v := by
  induction fields with
  | nil => simp at hk
  | cons p fields ih =>
      by_cases hp : p.1 = k
      · exact ⟨p.2, by simp [lookupField, List.find?, hp]⟩
      · have hk' : k ∈ fields.map Prod.fst := by
          simp only [List.map_cons, List.mem_cons] at hk
          rcases hk with h | h
          · exact absurd h.symm hp
          · exact h
        rcases ih hk' with ⟨v, hv⟩
        exact ⟨v, by simpa [lookupField, List.find?, hp] using hv⟩

theorem jsGet_ne_parseError (v : Json) (key a b : String) :
    jsGet v key ≠ .error (.apiError a b) := by
  cases v <;> simp [jsGet]

theorem bind_congr_ok {α β : Type} {x : Except Thrown α} {v : α}
    (h : x = .ok v) (k : α → Except Thrown β) : (x >>= k) = k v := by
  rw [h]; rfl

theorem bind_congr_error {α β : Type} {x : Except Thrown α} {e : Thrown}
    (h : x = .error e) (k : α → Except Thrown β) : (x >>= k) = .error e := by
  rw [h]; rfl

/-- Encoding of one vendor error object `{ErrorCode, ErrorMessage}`. -/
def errObj (p : String × String) : Json :=
  Json.obj [("ErrorCode", Json.str p.1), ("ErrorMessage", Json.str p.2)]

theorem mapM_errObj (l : List (String × String)) :
    (l.map errObj).mapM (fun e => jsGet e "ErrorMessage")
      = Except.ok (l.map (fun p => some (Json.str p.2))) := by
  induction l with
  | nil => rfl
  | cons p l ih =>
      have h1 : jsGet (errObj p) "ErrorMessage" = .ok (some (Json.str p.2)) := rfl
      simp only [List.map_cons, List.mapM_cons, h1, ih]
      rfl

/-! ### Claim C1 -/

/-- Claim C1, counterexample to the claim as stated: in the response object
`\x7b"M": false\x7d` the exact method-name key `"M"` is present, yet
`extractResponseBody` does not select it and return its `Body` member — it
raises `PARSE_ERROR`, which the claim reserves for the case where no
candidate key exists. -/
theorem extractResponseBody_exact_key_counterexample :
    jsIndex (Json.obj [("M", Json.bool false)]) "M" = some (Json.bool false) ∧
    extractResponseBody (Json.obj [("M", Json.bool false)]) "M"
      = .error (.apiError "Invalid API response structure" "PARSE_ERROR") :=
  ⟨rfl, rfl⟩

/-- Claim C1 (amended): for every parsed response object and method name,
body extraction selects the exact method-name key only when its value is
truthy and not an array, and then returns that value's `Body` member;
otherwise it selects the first key in iteration order whose name is not
`"Errors"` and whose value has JavaScript typeof `"object"` (null included)
and is not an array, returning that wrapper's `Body` member; it raises
`ClientError` with code `PARSE_ERROR` exactly when neither kind of key
exists (in particular when the only candidate key maps to an array). -/
theorem extractResponseBody_spec (fields : List (String × Json)) (m : String) :
    (∀ v, jsIndex (Json.obj fields) m = some v →
      (truthy (some v) && !(isArrayVal (some v))) = true →
      extractResponseBody (Json.obj fields) m = jsGet v "Body") ∧
    ((truthy (jsIndex (Json.obj fields) m) && !(isArrayVal (jsIndex (Json.obj fields) m))) = false →
      ∀ k v, (objKeys (Json.obj fields)).find? (fallbackPred (Json.obj fields)) = some k →
        jsIndex (Json.obj fields) k = some v →
        extractResponseBody (Json.obj fields) m = jsGet v "Body") ∧
    (extractResponseBody (Json.obj fields) m
        = .error (.apiError "Invalid API response structure" "PARSE_ERROR") ↔
      ((truthy (jsIndex (Json.obj fields) m) && !(isArrayVal (jsIndex (Json.obj fields) m))) = false ∧
        ∀ k ∈ objKeys (Json.obj fields), fallbackPred (Json.obj fields) k = false)) := by
  have hmatch : ∀ (o : Option Json) (v : Json), o = some v →
      (match o with | some w => jsGet w "Body" | none => Except.ok none) = jsGet v "Body" := by
    intro o v ho; rw [ho]
  have hred : extractResponseBody (Json.obj fields) m =
      (if truthy (lookupField fields m) && !(isArrayVal (lookupField fields m)) then
        match lookupField fields m with
        | some v => jsGet v "Body"
        | none => .ok none
      else
        match (objKeys (Json.obj fields)).find? (fallbackPred (Json.obj fields)) with
        | some responseKey =>
            match jsIndex (Json.obj fields) responseKey with
            | some v => jsGet v "Body"
            | none => .ok none
        | none => .error (.apiError "Invalid API response structure" "PARSE_ERROR")) := rfl
  have hidx : jsIndex (Json.obj fields) m = lookupField fields m := rfl
  refine ⟨?_, ?_, ?_⟩
  · intro v hv hcond
    rw [hidx] at hv
    rw [hred, hv]
    simp [hcond]
  · intro hcond k v hfind hkv
    rw [hidx] at hcond
    rw [hred, if_neg (by simp [hcond]), hfind]
    exact hmatch _ v hkv
  · rw [hidx]
    constructor
    · intro h
      by_cases hcond : (truthy (lookupField fields m) && !(isArrayVal (lookupField fields m))) = true
      · exfalso
        rw [hred, if_pos hcond] at h
        cases hv : lookupField fields m with
        | none => rw [hv] at hcond; simp [truthy] at hcond
        | some v => rw [hv] at h; exact jsGet_ne_parseError v "Body" _ _ h
      · have hcond' : (truthy (lookupField fields m) && !(isArrayVal (lookupField fields m))) = false := by
          simpa using hcond
        refine ⟨hcond', ?_⟩
        rw [hred, if_neg (by simp [hcond'])] at h
        cases hfind : (objKeys (Json.obj fields)).find? (fallbackPred (Json.obj fields)) with
        | some k =>
            exfalso
            rw [hfind] at h
            have hkmem : k ∈ objKeys (Json.obj fields) := List.mem_of_find?_eq_some hfind
            rcases lookupField_of_mem_keys (by simpa [objKeys] using hkmem) with ⟨v, hv⟩
            have hjk : jsIndex (Json.obj fields) k = some v := hv
            have h' : (match jsIndex (Json.obj fields) k with
                | some w => jsGet w "Body"
                | none => Except.ok none)
                = Except.error (Thrown.apiError "Invalid API response structure" "PARSE_ERROR") := h
            rw [hmatch _ v hjk] at h'
            exact jsGet_ne_parseError v "Body" _ _ h'
        | none =>
            intro k hk
            have := List.find?_eq_none.mp hfind k hk
            simpa using this
    · rintro ⟨hcond, hall⟩
      rw [hred, if_neg (by simp [hcond])]
      have hfind : (objKeys (Json.obj fields)).find? (fallbackPred (Json.obj fields)) = none :=
        List.find?_eq_none.mpr (fun k hk => by simp [hall k hk])
      rw [hfind]

/-- Witness for the amended claim C1: the fallback branch of
`extractResponseBody` selects the alternate key and returns its `Body`. -/
theorem extractResponseBody_spec_witness :
    extractResponseBody (Json.obj [("Other", Json.obj [("Body", Json.str "x")])]) "M"
      = .ok (some (Json.str "x")) := by
  have h := (extractResponseBody_spec [("Other", Json.obj [("Body", Json.str "x")])] "M").2.1
    (by rfl) "Other" (Json.obj [("Body", Json.str "x")]) (by rfl) (by rfl)
  exact h.trans rfl

/-! ### Claim C2 -/

/-- Claim C2: `request` classifies every failure with no retry: a non-2xx
HTTP response raises `ClientError` whose code is the decimal string of the
status and whose message is `HTTP <status>: <statusText>`; a timeout abort
raises code `TIMEOUT`; any other thrown `Error` raises `NETWORK_ERROR` with
the original message; a thrown non-`Error` value raises `UNKNOWN`; and a
`QuickFileApiError` thrown inside the attempt is re-raised unchanged. -/
theorem request_error_classification (m : String) (t : Nat) :
    (∀ status statusText body, responseOk status = false →
      request (.response status statusText body) m t
        = .error ⟨s!"HTTP {status}: {statusText}", toString status⟩) ∧
    (∀ msg, request (.threw (.jsError "AbortError" msg)) m t
        = .error ⟨s!"Request timeout after {t}ms", "TIMEOUT"⟩) ∧
    (∀ name msg, name ≠ "AbortError" →
      request (.threw (.jsError name msg)) m t = .error ⟨msg, "NETWORK_ERROR"⟩) ∧
    (request (.threw .other) m t = .error ⟨"Unknown error occurred", "UNKNOWN"⟩) ∧
    (∀ msg code, request (.threw (.apiError msg code)) m t = .error ⟨msg, code⟩) := by
  refine ⟨?_, ?_, ?_, ?_, ?_⟩
  · intro status statusText body hs
    simp [request, requestTry, hs, handleRequestError]
  · intro msg
    simp [request, requestTry, handleRequestError]
  · intro name msg hn
    simp [request, requestTry, handleRequestError, hn]
  · simp [request, requestTry, handleRequestError]
  · intro msg code
    simp [request, requestTry, handleRequestError]

/-- Witness for claim C2: a 500 response is classified as
`ClientError` with code `"500"` and an `HTTP 500` message. -/
theorem request_error_classification_witness :
    request (.response 500 "Internal Server Error" (.parsed Json.null)) "Client_Search" 30000
      = .error ⟨"HTTP 500: Internal Server Error", "500"⟩ := by
  have h := (request_error_classification "Client_Search" 30000).1 500 "Internal Server Error"
    (.parsed Json.null) (by rfl)
  exact h.trans (by rfl)

/-! ### Claim C3 -/

/-- Claim C3: for every 2xx response whose parsed JSON contains a non-empty
`Errors` array, `request` raises a `ClientError` whose code is the first
error's `ErrorCode` and whose message joins all `ErrorMessage` values with
`"; "`; the vendor-error check takes precedence over body extraction (the
result does not depend on the other keys of the response). -/
theorem request_vendor_errors (status : Nat) (statusText m : String) (t : Nat)
    (fields : List (String × Json)) (first : String × String) (rest : List (String × String))
    (hok : responseOk status = true)
    (herr : lookupField fields "Errors" = some (Json.arr ((first :: rest).map errObj))) :
    request (.response status statusText (.parsed (Json.obj fields))) m t
      = .error ⟨String.intercalate "; " ((first :: rest).map (fun p => p.2)), first.1⟩ := by
  have hget : jsGet (Json.obj fields) "Errors" = .ok (some (Json.arr ((first :: rest).map errObj))) := by
    simp [jsGet, jsIndex, herr]
  have hchk : checkVendorErrors (Json.obj fields)
      = .error (.apiError (String.intercalate "; " ((first :: rest).map (fun p => p.2))) first.1) := by
    rw [checkVendorErrors, bind_congr_ok hget]
    have hln : lengthGtZero (some (Json.arr ((first :: rest).map errObj))) = true := by
      simp [lengthGtZero]
    simp only [truthy, hln, Bool.and_true, if_true]
    rw [bind_congr_ok (mapM_errObj (first :: rest))]
    have hcode : jsGet (errObj first) "ErrorCode" = .ok (some (Json.str first.1)) := rfl
    simp only [List.map_cons]
    rw [bind_congr_ok hcode]
    simp [jsRawToString, joinElem, List.map_map, Function.comp_def]
  have htry : requestTry (.response status statusText (.parsed (Json.obj fields))) m
      = .error (.apiError (String.intercalate "; " ((first :: rest).map (fun p => p.2))) first.1) := by
    rw [requestTry]
    simp only [hok, Bool.not_true, Bool.false_eq_true, if_false]
    rw [bind_congr_error hchk]
  simp [request, htry, handleRequestError]

/-- Witness for claim C3: the spec's `AUTH_FAILED` example. -/
theorem request_vendor_errors_witness :
    request (.response 200 "OK" (.parsed (Json.obj [("Errors", Json.arr
      [errObj ("AUTH_FAILED", "Invalid credentials")])]))) "Client_Search" 30000
      = .error ⟨"Invalid credentials", "AUTH_FAILED"⟩ := by
  have h := request_vendor_errors 200 "OK" "Client_Search" 30000
    [("Errors", Json.arr [errObj ("AUTH_FAILED", "Invalid credentials")])]
    ("AUTH_FAILED", "Invalid credentials") [] (by rfl) (by rfl)
  exact h.trans (by rfl)

/-! ### Claim C9 -/

/-- Claim C9: a 2xx response whose exact method-name key maps to a truthy
non-array primitive (here the string `"hello"`) does not raise
`PARSE_ERROR` — the exact-key branch checks only truthiness and
non-array-ness, treats the primitive as the wrapper, and `request` resolves
successfully with `undefined` (modelled `none`) as the extracted body. -/
theorem request_primitive_exact_key_resolves :
    request (.response 200 "OK" (.parsed (Json.obj [("M", Json.str "hello")]))) "M" 30000
      = .ok none := rfl

/-! ### Claim C10 -/

/-- Claim C10: a 2xx response with no usable exact method-name key whose
first non-`Errors` key maps to JSON `null` passes the typeof-object fallback
test; reading the wrapper's `Body` throws a `TypeError`, which `request`
reports as `ClientError` with code `NETWORK_ERROR`, not `PARSE_ERROR`. -/
theorem request_null_fallback_network_error :
    request (.response 200 "OK" (.parsed (Json.obj [("A", Json.null)]))) "M" 30000
      = .error ⟨"Cannot read properties of null (reading Body)", "NETWORK_ERROR"⟩ := rfl


/-! ### Authentication: UTF-8 and MD5 (`generateMD5Hash`) -/

/-- UTF-8 encoding of one character as byte values. -/
def utf8Char (c : Char) : List Nat :=
  let n := c.toNat
  if n < 128 then [n]
  else if n < 2048 then [192 + n / 64, 128 + n % 64]
  else if n < 65536 then [224 + n / 4096, 128 + n / 64 % 64, 128 + n % 64]
  else [240 + n / 262144, 128 + n / 4096 % 64, 128 + n / 64 % 64, 128 + n % 64]

/-- UTF-8 encoding of a string as a list of byte values. -/
def utf8Bytes (s : String) : List Nat := s.data.flatMap utf8Char

namespace MD5

/-- Addition modulo 2^32. -/
def add32 (a b : Nat) : Nat := (a + b) % 4294967296

/-- Bitwise complement within 32 bits. -/
def not32 (x : Nat) : Nat := Nat.xor x 4294967295

/-- Left-rotation of a 32-bit word by `s` bits. -/
def rotl (s x : Nat) : Nat := (x * 2 ^ s + x / 2 ^ (32 - s)) % 4294967296

/-- The sine-derived round constants `K[0..63]`. -/
def kTable : List Nat :=
  [3614090360, 3905402710, 606105819, 3250441966, 4118548399, 1200080426, 2821735955, 4249261313,
   1770035416, 2336552879, 4294925233, 2304563134, 1804603682, 4254626195, 2792965006, 1236535329,
   4129170786, 3225465664, 643717713, 3921069994, 3593408605, 38016083, 3634488961, 3889429448,
   568446438, 3275163606, 4107603335, 1163531501, 2850285829, 4243563512, 1735328473, 2368359562,
   4294588738, 2272392833, 1839030562, 4259657740, 2763975236, 1272893353, 4139469664, 3200236656,
   681279174, 3936430074, 3572445317, 76029189, 3654602809, 3873151461, 530742520, 3299628645,
   4096336452, 1126891415, 2878612391, 4237533241, 1700485571, 2399980690, 4293915773, 2240044497,
   1873313359, 4264355552, 2734768916, 1309151649, 4149444226, 3174756917, 718787259, 3951481745]

/-- The per-round left-rotation amounts `s[0..63]`. -/
def sTable : List Nat :=
  [7, 12, 17, 22, 7, 12, 17, 22, 7, 12, 17, 22, 7, 12, 17, 22,
   5, 9, 14, 20, 5, 9, 14, 20, 5, 9, 14, 20, 5, 9, 14, 20,
   4, 11, 16, 23, 4, 11, 16, 23, 4, 11, 16, 23, 4, 11, 16, 23,
   6, 10, 15, 21, 6, 10, 15, 21, 6, 10, 15, 21, 6, 10, 15, 21]

/-- One MD5 round applied to the running state `(a, b, c, d)`. -/
def step (words : List Nat) (st : Nat × Nat × Nat × Nat) (i : Nat) :
    Nat × Nat × Nat × Nat :=
  let a := st.1
  let b := st.2.1
  let c := st.2.2.1
  let d := st.2.2.2
  let f :=
    if i < 16 then Nat.lor (Nat.land b c) (Nat.land (not32 b) d)
    else if i < 32 then Nat.lor (Nat.land d b) (Nat.land (not32 d) c)
    else if i < 48 then Nat.xor (Nat.xor b c) d
    else Nat.xor c (Nat.lor b (not32 d))
  let g :=
    if i < 16 then i
    else if i < 32 then (5 * i + 1) % 16
    else if i < 48 then (3 * i + 5) % 16
    else (7 * i) % 16
  let x := (a + f + kTable.getD i 0 + words.getD g 0) % 4294967296
  (d, add32 b (rotl (sTable.getD i 0) x), b, c)

/-- Process one 64-byte block. -/
def processBlock (st : Nat × Nat × Nat × Nat) (block : List Nat) :
    Nat × Nat × Nat × Nat :=
  let words := (List.range 16).map (fun j =>
    block.getD (4 * j) 0 + 256 * block.getD (4 * j + 1) 0 +
    65536 * block.getD (4 * j + 2) 0 + 16777216 * block.getD (4 * j + 3) 0)
  let fin := (List.range 64).foldl (step words) st
  (add32 st.1 fin.1, add32 st.2.1 fin.2.1, add32 st.2.2.1 fin.2.2.1, add32 st.2.2.2 fin.2.2.2)

/-- Process the padded message 64 bytes at a time (the fuel argument makes the
recursion structural; any fuel at least the byte count gives the same value). -/
def processBlocksAux : Nat → List Nat → (Nat × Nat × Nat × Nat) → Nat × Nat × Nat × Nat
  | 0, _, st => st
  | _ + 1, [], st => st
  | fuel + 1, b :: rest, st =>
      processBlocksAux fuel ((b :: rest).drop 64) (processBlock st ((b :: rest).take 64))

/-- MD5 padding: a 0x80 byte, zeros to 56 mod 64, then the bit length as
eight little-endian bytes. -/
def padMessage (msg : List Nat) : List Nat :=
  let len := msg.length
  let zeros := (64 + 56 - ((len + 1) % 64)) % 64
  let bitLen := 8 * len % 18446744073709551616
  msg ++ 128 :: (List.replicate zeros 0 ++ (List.range 8).map (fun i => bitLen / 256 ^ i % 256))

/-- Lowercase hexadecimal digit. -/
def hexDigit (d : Nat) : Char := if d < 10 then Char.ofNat (48 + d) else Char.ofNat (87 + d)

/-- Two lowercase hex characters of a byte. -/
def byteHexChars (b : Nat) : List Char := [hexDigit (b / 16 % 16), hexDigit (b % 16)]

/-- Four little-endian bytes of a 32-bit word. -/
def wordLEBytes (w : Nat) : List Nat :=
  [w % 256, w / 256 % 256, w / 65536 % 256, w / 16777216 % 256]

/-- The sixteen digest bytes of a final state. -/
def digestBytes (st : Nat × Nat × Nat × Nat) : List Nat :=
  wordLEBytes st.1 ++ wordLEBytes st.2.1 ++ wordLEBytes st.2.2.1 ++ wordLEBytes st.2.2.2

/-- MD5 of a byte list, rendered as 32 lowercase hex characters. -/
def md5Hex (msg : List Nat) : String :=
  let padded := padMessage msg
  let final := processBlocksAux padded.length padded (1732584193, 4023233417, 2562383102, 271733878)
  String.mk ((digestBytes final).flatMap byteHexChars)

end MD5

/-- `generateMD5Hash` from `src/api/auth.ts`: MD5 of the direct concatenation
`accountNumber + apiKey + submissionNumber`, hex-encoded. -/
def generateMD5Hash (accountNumber apiKey submissionNumber : String) : String :=
  MD5.md5Hex (utf8Bytes (accountNumber ++ apiKey ++ submissionNumber))

/-- Lowercase hexadecimal character test. -/
def isLowerHex (c : Char) : Bool := c.isDigit || ('a' ≤ c && c ≤ 'f')

theorem isLowerHex_hexDigit (x : Nat) : isLowerHex (MD5.hexDigit (x % 16)) = true := by
  have h : x % 16 < 16 := Nat.mod_lt _ (by norm_num)
  have hfin : ∀ d : Fin 16, isLowerHex (MD5.hexDigit d.val) = true := by decide
  exact hfin ⟨x % 16, h⟩

set_option maxRecDepth 10000 in
theorem md5_vector_123api456 : MD5.md5Hex (utf8Bytes "123api456")
    = "dcb6a0335385a9a1041c2285af92190c" := by rfl

set_option maxRecDepth 10000 in
theorem md5_vector_hash : generateMD5Hash "123" "api" "456"
    = "dcb6a0335385a9a1041c2285af92190c" := by rfl

/-! ### Claim C5 -/

/-- Claim C5: for all string inputs the hash is the MD5 digest of the direct
concatenation `accountId + apiKey + submissionId` in that order with no
separators, rendered as exactly 32 lowercase hexadecimal characters (also for
empty-string inputs); determinism holds because the embedding is a pure
function of its arguments.  In particular `hash("123","api","456")` equals
`MD5("123api456")`, pinned to the externally computed digest
`dcb6a0335385a9a1041c2285af92190c`. -/
theorem generateMD5Hash_spec :
    (∀ accountNumber apiKey submissionNumber : String,
      generateMD5Hash accountNumber apiKey submissionNumber
        = MD5.md5Hex (utf8Bytes (accountNumber ++ apiKey ++ submissionNumber))) ∧
    (∀ accountNumber apiKey submissionNumber : String,
      (generateMD5Hash accountNumber apiKey submissionNumber).data.length = 32) ∧
    (∀ accountNumber apiKey submissionNumber : String,
      ((generateMD5Hash accountNumber apiKey submissionNumber).data.all isLowerHex) = true) ∧
    generateMD5Hash "123" "api" "456" = "dcb6a0335385a9a1041c2285af92190c" ∧
    MD5.md5Hex (utf8Bytes "123api456") = "dcb6a0335385a9a1041c2285af92190c" := by
  refine ⟨fun _ _ _ => rfl, ?_, ?_, ?_, ?_⟩
  · intro accountNumber apiKey submissionNumber
    simp [generateMD5Hash, MD5.md5Hex, MD5.digestBytes, MD5.wordLEBytes, MD5.byteHexChars]
  · intro accountNumber apiKey submissionNumber
    simp [generateMD5Hash, MD5.md5Hex, MD5.digestBytes, MD5.wordLEBytes, MD5.byteHexChars,
      List.all, isLowerHex_hexDigit]
  · exact md5_vector_hash
  · exact md5_vector_123api456

/-! ### Submission numbers (`generateSubmissionNumber`) -/

/-- Decimal digit character. -/
def digitChar10 (d : Nat) : Char := Char.ofNat (48 + d)

/-- Little-endian decimal digits; the fuel argument makes the recursion
structural, and any fuel at least `n` gives the same value. -/
def decDigitsAux : Nat → Nat → List Nat
  | _, 0 => []
  | 0, _ + 1 => []
  | fuel + 1, n + 1 => (n + 1) % 10 :: decDigitsAux fuel ((n + 1) / 10)

/-- Little-endian decimal digits of `n` (empty for `n = 0`). -/
def decDigits (n : Nat) : List Nat := decDigitsAux n n

/-- JavaScript `String(n)` for a natural number, as characters. -/
def decChars (n : Nat) : List Char :=
  if n = 0 then ['0'] else ((decDigits n).map digitChar10).reverse

/-- JavaScript `String.prototype.padStart(n, c)`. -/
def padStartChars (l : List Char) (n : Nat) (c : Char) : List Char :=
  List.replicate (n - l.length) c ++ l

/-- Base-36 digit character (0-9 then a-z), as `Number.prototype.toString(36)`. -/
def base36Char (d : Nat) : Char :=
  if d < 10 then Char.ofNat (48 + d) else Char.ofNat (87 + d)

/-- Little-endian base-36 digits with structural fuel. -/
def base36Aux : Nat → Nat → List Nat
  | _, 0 => []
  | 0, _ + 1 => []
  | fuel + 1, n + 1 => (n + 1) % 36 :: base36Aux fuel ((n + 1) / 36)

/-- JavaScript `n.toString(36)` for a natural number, as characters. -/
def base36Chars (n : Nat) : List Char :=
  if n = 0 then ['0'] else ((base36Aux n n).map base36Char).reverse

/-- `generateSubmissionNumber` from `src/api/auth.ts`, with the module-level
counter passed explicitly: increments the counter and returns the base-36
timestamp concatenated with the counter zero-padded to at least 4 digits. -/
def generateSubmissionNumber (now counter : Nat) : String × Nat :=
  let newCounter := counter + 1
  (String.mk (base36Chars now ++ padStartChars (decChars newCounter) 4 '0'), newCounter)

/-- A sequence of consecutive calls to `generateSubmissionNumber` within one
process: one call per listed timestamp, threading the counter. -/
def runSubmissions : List Nat → Nat → List String
  | [], _ => []
  | t :: ts, counter =>
      (generateSubmissionNumber t counter).1 ::
        runSubmissions ts (generateSubmissionNumber t counter).2

theorem decDigitsAux_congr (n : Nat) : ∀ f f', n ≤ f → n ≤ f' →
    decDigitsAux f n = decDigitsAux f' n := by
  induction n using Nat.strong_induction_on with
  | _ n ih =>
      intro f f' hf hf'
      match n, f, f', hf, hf' with
      | 0, f, f', _, _ => cases f <;> cases f' <;> rfl
      | n + 1, f + 1, f' + 1, hf, hf' =>
          simp only [decDigitsAux]
          congr 1
          have hdiv : (n + 1) / 10 < n + 1 := Nat.div_lt_self (Nat.succ_pos n) (by norm_num)
          exact ih _ hdiv f f' (by omega) (by omega)

theorem decDigits_succ (n : Nat) (hn : n ≠ 0) :
    decDigits n = n % 10 :: decDigits (n / 10) := by
  match n, hn with
  | n + 1, _ =>
      show decDigitsAux (n + 1) (n + 1) = _
      simp only [decDigitsAux]
      congr 1
      have hdiv : (n + 1) / 10 ≤ n := by
        have := Nat.div_lt_self (Nat.succ_pos n) (show 1 < 10 by norm_num)
        omega
      exact decDigitsAux_congr _ _ _ hdiv le_rfl

theorem take_append_replicate_sub (L : List Nat) (k : Nat) :
    (L ++ List.replicate (k - L.length) 0).take k = (L ++ List.replicate k 0).take k := by
  rw [List.take_append_eq_append_take, List.take_append_eq_append_take,
    List.take_replicate, List.take_replicate]
  congr 2
  omega

theorem take_pad_digits (k : Nat) : ∀ c, (decDigits c ++ List.replicate k 0).take k
    = (List.range k).map (fun i => c / 10 ^ i % 10) := by
  induction k with
  | zero => simp
  | succ k ih =>
      intro c
      by_cases hc : c = 0
      · subst hc
        have h0 : decDigits 0 = [] := rfl
        simp [h0, List.take_replicate, List.map_const']
      · rw [decDigits_succ c hc]
        have hstep : ((c % 10 :: decDigits (c / 10)) ++ List.replicate (k + 1) 0).take (k + 1)
            = c % 10 :: ((decDigits (c / 10) ++ List.replicate (k + 1) 0).take k) := by
          simp [List.take_succ_cons]
        rw [hstep]
        have hrep : (decDigits (c / 10) ++ List.replicate (k + 1) 0).take k
            = (decDigits (c / 10) ++ List.replicate k 0).take k := by
          rw [List.take_append_eq_append_take, List.take_append_eq_append_take,
            List.take_replicate, List.take_replicate]
          congr 2
          omega
        rw [hrep, ih (c / 10)]
        rw [List.range_succ_eq_map]
        simp only [List.map_cons, List.map_map, pow_zero, Nat.div_one]
        refine List.cons_eq_cons.mpr ⟨rfl, ?_⟩
        apply List.map_congr_left
        intro i _
        simp only [Function.comp_apply, Nat.succ_eq_add_one]
        rw [Nat.div_div_eq_div_mul, ← pow_succ']

theorem digitChar10_inj (a b : Nat) (ha : a < 10) (hb : b < 10)
    (hab : digitChar10 a = digitChar10 b) : a = b := by
  have h : ∀ x y : Fin 10, digitChar10 x.val = digitChar10 y.val → x = y := by decide
  have := h ⟨a, ha⟩ ⟨b, hb⟩ hab
  exact congrArg Fin.val this

theorem pad_reverse_take (c : Nat) (hc : 0 < c) :
    (padStartChars (decChars c) 4 '0').reverse.take 4
      = [c % 10, c / 10 % 10, c / 100 % 10, c / 1000 % 10].map digitChar10 := by
  have hne : c ≠ 0 := Nat.pos_iff_ne_zero.mp hc
  have hd : decChars c = ((decDigits c).map digitChar10).reverse := by
    simp [decChars, hne]
  have hz : digitChar10 0 = '0' := rfl
  rw [padStartChars, List.reverse_append, List.reverse_replicate, hd, List.reverse_reverse]
  simp only [List.length_reverse, List.length_map]
  rw [← hz, ← List.map_replicate, ← List.map_append, ← List.map_take,
    take_append_replicate_sub, take_pad_digits 4 c]
  have hr4 : List.range 4 = [0, 1, 2, 3] := rfl
  rw [hr4]
  norm_num

theorem append_pad_inj (t1 t2 : List Char) (a b : Nat) (ha : 0 < a) (hb : 0 < b)
    (hne : a ≠ b) (hab : a < b + 10000) (hba : b < a + 10000) :
    t1 ++ padStartChars (decChars a) 4 '0' ≠ t2 ++ padStartChars (decChars b) 4 '0' := by
  intro heq
  have hlen : ∀ L, 4 ≤ (padStartChars L 4 '0').reverse.length := by
    intro L
    simp [padStartChars]
    omega
  have hrev := congrArg List.reverse heq
  simp only [List.reverse_append] at hrev
  have h4 : (padStartChars (decChars a) 4 '0').reverse.take 4
      = (padStartChars (decChars b) 4 '0').reverse.take 4 := by
    have e1 : ((padStartChars (decChars a) 4 '0').reverse ++ t1.reverse).take 4
        = (padStartChars (decChars a) 4 '0').reverse.take 4 :=
      List.take_append_of_le_length (hlen _)
    have e2 : ((padStartChars (decChars b) 4 '0').reverse ++ t2.reverse).take 4
        = (padStartChars (decChars b) 4 '0').reverse.take 4 :=
      List.take_append_of_le_length (hlen _)
    rw [← e1, ← e2, hrev]
  rw [pad_reverse_take a ha, pad_reverse_take b hb] at h4
  simp only [List.map_cons, List.map_nil, List.cons.injEq, and_true] at h4
  obtain ⟨h1, h2, h3, h4'⟩ := h4
  have d1 := digitChar10_inj _ _ (Nat.mod_lt _ (by norm_num)) (Nat.mod_lt _ (by norm_num)) h1
  have d2 := digitChar10_inj _ _ (Nat.mod_lt _ (by norm_num)) (Nat.mod_lt _ (by norm_num)) h2
  have d3 := digitChar10_inj _ _ (Nat.mod_lt _ (by norm_num)) (Nat.mod_lt _ (by norm_num)) h3
  have d4 := digitChar10_inj _ _ (Nat.mod_lt _ (by norm_num)) (Nat.mod_lt _ (by norm_num)) h4'
  omega

theorem mem_runSubmissions : ∀ (ts : List Nat) (counter : Nat) (s : String),
    s ∈ runSubmissions ts counter →
    ∃ t k, counter < k ∧ k ≤ counter + ts.length ∧
      s = String.mk (base36Chars t ++ padStartChars (decChars k) 4 '0') := by
  intro ts
  induction ts with
  | nil => intro counter s hs; simp [runSubmissions] at hs
  | cons t ts ih =>
      intro counter s hs
      rw [runSubmissions] at hs
      rcases List.mem_cons.mp hs with h | h
      · exact ⟨t, counter + 1, Nat.lt_succ_self _, by simp only [List.length_cons]; omega, h⟩
      · rcases ih (counter + 1) s h with ⟨t', k, hk1, hk2, hk3⟩
        refine ⟨t', k, by omega, ?_, hk3⟩
        simp only [List.length_cons]
        omega

theorem runSubmissions_pairwise : ∀ (ts : List Nat) (counter : Nat),
    ts.length ≤ 9999 → (runSubmissions ts counter).Pairwise (fun a b => a ≠ b) := by
  intro ts
  induction ts with
  | nil => intro counter _; exact List.Pairwise.nil
  | cons t ts ih =>
      intro counter hlen
      rw [runSubmissions]
      refine List.Pairwise.cons ?_
        (ih (counter + 1) (by simp only [List.length_cons] at hlen; omega))
      intro s hs heq
      rcases mem_runSubmissions ts (counter + 1) s hs with ⟨t', k, hk1, hk2, hk3⟩
      subst hk3
      have hdata := congrArg String.data heq
      simp only [String.data] at hdata
      have hlen' : ts.length ≤ 9998 := by simp only [List.length_cons] at hlen; omega
      exact append_pad_inj (base36Chars t) (base36Chars t') (counter + 1) k
        (by omega) (by omega) (by omega) (by omega) (by omega) hdata

/-! ### Claim C6 -/

/-- Claim C6: every call to the submission-id generator increments the
process-wide counter and returns the base-36 current timestamp concatenated
with the counter zero-padded to at least 4 digits; consequently any 100
consecutive calls within one process, whatever the clock does, yield 100
pairwise-distinct strings. -/
theorem generateSubmissionNumber_unique :
    (∀ now counter, generateSubmissionNumber now counter
        = (String.mk (base36Chars now ++ padStartChars (decChars (counter + 1)) 4 '0'),
           counter + 1)) ∧
    (∀ (timestamps : List Nat) (counter : Nat), timestamps.length = 100 →
      (runSubmissions timestamps counter).Pairwise (fun a b => a ≠ b)) :=
  ⟨fun _ _ => rfl, fun ts c h => runSubmissions_pairwise ts c (by omega)⟩

/-- Witness for claim C6: 100 consecutive calls with a frozen clock are
pairwise distinct. -/
theorem generateSubmissionNumber_unique_witness :
    (runSubmissions (List.replicate 100 0) 0).Pairwise (fun a b => a ≠ b) :=
  generateSubmissionNumber_unique.2 (List.replicate 100 0) 0 (by simp)


/-! ### Authentication header (`createAuthHeader`) -/

/-- Credentials loaded from the credential store. -/
structure QuickFileCredentials where
  accountNumber : String
  apiKey : String
  applicationId : String

/-- The `Authentication` block of a request header. -/
structure AuthFields where
  AccNumber : String
  MD5Value : String
  ApplicationID : String
deriving DecidableEq

/-- The `QuickFileHeader` request header. `TestMode` is `none` when the field
is absent from the object. -/
structure QuickFileHeader where
  MessageType : String
  SubmissionNumber : String
  Authentication : AuthFields
  TestMode : Option Bool
deriving DecidableEq

/-- `createAuthHeader` from `src/api/auth.ts`, with the module counter passed
explicitly: fresh submission number, MD5 over account + key + submission, and
`TestMode := true` added only when `testMode` is set. -/
def createAuthHeader (credentials : QuickFileCredentials) (testMode : Bool)
    (now counter : Nat) : QuickFileHeader × Nat :=
  let sub := generateSubmissionNumber now counter
  let md5Value := generateMD5Hash credentials.accountNumber credentials.apiKey sub.1
  let base : QuickFileHeader :=
    { MessageType := "Request"
      SubmissionNumber := sub.1
      Authentication := ⟨credentials.accountNumber, md5Value, credentials.applicationId⟩
      TestMode := none }
  (if testMode then { base with TestMode := some true } else base, sub.2)

/-! ### Claim C7 -/

/-- Claim C7: for every credentials value and testMode flag, the built header
has `MessageType = "Request"`, the freshly generated submission id (with the
counter advanced), and the authentication triple of account number, MD5 hash
of account + key + submission, and application id; `TestMode` equals
`some true` exactly when `testMode` is true, and is absent (`none`) exactly
when it is false. -/
theorem createAuthHeader_spec (credentials : QuickFileCredentials) (testMode : Bool)
    (now counter : Nat) :
    ((createAuthHeader credentials testMode now counter).1.MessageType = "Request") ∧
    ((createAuthHeader credentials testMode now counter).1.SubmissionNumber
        = (generateSubmissionNumber now counter).1) ∧
    ((createAuthHeader credentials testMode now counter).2 = counter + 1) ∧
    ((createAuthHeader credentials testMode now counter).1.Authentication
        = ⟨credentials.accountNumber,
            generateMD5Hash credentials.accountNumber credentials.apiKey
              (generateSubmissionNumber now counter).1,
            credentials.applicationId⟩) ∧
    ((createAuthHeader credentials testMode now counter).1.TestMode = some true
        ↔ testMode = true) ∧
    ((createAuthHeader credentials testMode now counter).1.TestMode = none
        ↔ testMode = false) := by
  cases testMode <;> simp [createAuthHeader, generateSubmissionNumber]

/-- Witness for claim C7 at concrete credentials: `TestMode` is omitted when
the flag is false and present as `true` when it is set. -/
theorem createAuthHeader_spec_witness :
    (createAuthHeader ⟨"123456", "apikey-0000", "app-id"⟩ false 0 0).1.TestMode = none ∧
    (createAuthHeader ⟨"123456", "apikey-0000", "app-id"⟩ true 0 0).1.TestMode = some true :=
  ⟨(createAuthHeader_spec ⟨"123456", "apikey-0000", "app-id"⟩ false 0 0).2.2.2.2.2.mpr rfl,
   (createAuthHeader_spec ⟨"123456", "apikey-0000", "app-id"⟩ true 0 0).2.2.2.2.1.mpr rfl⟩

/-! ### URL construction (`buildUrl`) -/

/-- Fixed API endpoint of the client. -/
def API_BASE_URL : String := "https://api.quickfile.co.uk"

/-- Fixed API version segment. -/
def API_VERSION : String := "1_2"

/-- JavaScript `toLowerCase` (ASCII range, which covers every method name). -/
def jsToLowerCase (s : String) : String := String.mk (s.data.map Char.toLower)

/-- `buildUrl` from `src/api/client.ts`: split the method name on underscores,
lowercase the first segment as the category, join and lowercase the rest. -/
def buildUrl (methodName : String) : String :=
  let parts := (methodName.data.splitOn '_').map String.mk
  let category := parts.headD ""
  let method := jsToLowerCase (String.join parts.tail)
  API_BASE_URL ++ "/" ++ API_VERSION ++ "/" ++ jsToLowerCase category ++ "/" ++ method

/-! ### Claim C8 -/

/-- Claim C8: for every method name of the form `Category_Seg1_Seg2_...`
(underscore-free components), the request URL is the fixed base URL, the
version segment, the lowercased category, and all remaining segments
concatenated and lowercased; in particular `Client_Search` maps to
`.../client/search` and `System_GetAccountDetails` to
`.../system/getaccountdetails`. -/
theorem buildUrl_spec :
    (∀ (category : List Char) (segs : List (List Char)),
      '_' ∉ category → (∀ seg ∈ segs, '_' ∉ seg) →
      buildUrl (String.mk (List.intercalate ['_'] (category :: segs)))
        = API_BASE_URL ++ "/" ++ API_VERSION ++ "/" ++ jsToLowerCase (String.mk category)
          ++ "/" ++ jsToLowerCase (String.join (segs.map String.mk))) ∧
    buildUrl "Client_Search" = "https://api.quickfile.co.uk/1_2/client/search" ∧
    buildUrl "System_GetAccountDetails"
      = "https://api.quickfile.co.uk/1_2/system/getaccountdetails" := by
  refine ⟨?_, by rfl, by rfl⟩
  intro category segs hcat hsegs
  have hsplit : (String.mk (List.intercalate ['_'] (category :: segs))).data.splitOn '_'
      = category :: segs := by
    have hx : ∀ l ∈ category :: segs, '_' ∉ l := by
      intro l hl
      rcases List.mem_cons.mp hl with h | h
      · exact h ▸ hcat
      · exact hsegs l h
    exact List.splitOn_intercalate (category :: segs) '_' hx (List.cons_ne_nil _ _)
  simp [buildUrl, hsplit]

/-- Witness for claim C8: the category `Client` with single segment `Search`. -/
theorem buildUrl_spec_witness :
    buildUrl (String.mk (List.intercalate ['_']
        [['C','l','i','e','n','t'], ['S','e','a','r','c','h']]))
      = "https://api.quickfile.co.uk/1_2/client/search" := by
  have h := buildUrl_spec.1 ['C','l','i','e','n','t'] [['S','e','a','r','c','h']]
    (by decide) (by decide)
  exact h.trans (by rfl)

/-! ### Debug logging (`logDebugRequest` / `logDebugResponse`) -/

/-- JSON string escaping (quote and backslash; sufficient for the values the
client serializes). -/
def escapeJsonChar (c : Char) : List Char :=
  if c = '"' ∨ c = '\\' then ['\\', c] else [c]

/-- A JSON string literal. -/
def serializeString (s : String) : String :=
  String.mk ('"' :: (s.data.flatMap escapeJsonChar ++ ['"']))

/-- `JSON.stringify` of a JSON value (without pretty-printing whitespace). -/
def serializeJson : Json → String
  | .null => "null"
  | .bool b => cond b "true" "false"
  | .num n => toString n
  | .str s => serializeString s
  | .arr elems =>
      "[" ++ String.intercalate "," (elems.attach.map (fun e => serializeJson e.1)) ++ "]"
  | .obj fields =>
      "\x7b" ++ String.intercalate ","
        (fields.attach.map (fun f => serializeString f.1.1 ++ ":" ++ serializeJson f.1.2))
        ++ "\x7d"
decreasing_by
  · have := List.sizeOf_lt_of_mem e.2
    simp only [Json.arr.sizeOf_spec]
    omega
  · have h1 := List.sizeOf_lt_of_mem f.2
    have h2 : sizeOf f.1.2 < sizeOf f.1 := by
      obtain ⟨⟨a, b⟩, hf⟩ := f
      simp
    simp only [Json.obj.sizeOf_spec]
    omega

/-- `JSON.stringify` of a request header object, in property order, with
`TestMode` omitted when absent. -/
def serializeHeader (h : QuickFileHeader) : String :=
  "\x7b" ++ serializeString "MessageType" ++ ":" ++ serializeString h.MessageType
    ++ "," ++ serializeString "SubmissionNumber" ++ ":" ++ serializeString h.SubmissionNumber
    ++ "," ++ serializeString "Authentication" ++ ":"
    ++ "\x7b" ++ serializeString "AccNumber" ++ ":" ++ serializeString h.Authentication.AccNumber
    ++ "," ++ serializeString "MD5Value" ++ ":" ++ serializeString h.Authentication.MD5Value
    ++ "," ++ serializeString "ApplicationID" ++ ":"
    ++ serializeString h.Authentication.ApplicationID
    ++ "\x7d"
    ++ (match h.TestMode with
        | some b => "," ++ serializeString "TestMode" ++ ":" ++ cond b "true" "false"
        | none => "")
    ++ "\x7d"

/-- `JSON.stringify` of the `safeRequest` envelope (payload with `Header` and
an optional `Body`; the `Body` key is omitted when the request carries none). -/
def serializeRequest (h : QuickFileHeader) (body : Option Json) : String :=
  "\x7b" ++ serializeString "payload" ++ ":" ++ "\x7b"
    ++ serializeString "Header" ++ ":" ++ serializeHeader h
    ++ (match body with
        | some b => "," ++ serializeString "Body" ++ ":" ++ serializeJson b
        | none => "")
    ++ "\x7d\x7d"

/-- The redacted `Authentication` object built by `logDebugRequest`. -/
def redactedAuth (h : QuickFileHeader) : AuthFields :=
  ⟨"***REDACTED***", "***REDACTED***", h.Authentication.ApplicationID⟩

/-- The `safeRequest` header of `logDebugRequest`: every header field kept,
authentication replaced by the redacted block. -/
def safeRequestHeader (h : QuickFileHeader) : QuickFileHeader :=
  { h with Authentication := redactedAuth h }

/-- The two lines `logDebugRequest` prints: the URL and the serialized
`safeRequest` envelope. -/
def logDebugRequestLines (url : String) (h : QuickFileHeader) (body : Option Json) :
    List String :=
  [s!"[DEBUG] URL: {url}",
   s!"[DEBUG] Request: {serializeRequest (safeRequestHeader h) body}"]

/-- The two lines `logDebugResponse` prints: raw status and raw body text. -/
def logDebugResponseLines (status : Nat) (responseText : String) : List String :=
  [s!"[DEBUG] Response Status: {status}", s!"[DEBUG] Response: {responseText}"]

/-- Replace the two secret authentication fields of a header. -/
def setSecrets (h : QuickFileHeader) (acc md5 : String) : QuickFileHeader :=
  { h with Authentication :=
      { h.Authentication with AccNumber := acc, MD5Value := md5 } }

/-! ### Claim C4 -/

/-- Claim C4: with debug mode enabled, the logged request envelope carries the
fixed placeholder in place of the account number and MD5 hash while the
application id stays visible, and the captured log output is identical for
any two headers differing only in those two secret fields — so no code path
of the request logger can put the literal account id or hash value into the
log. -/
theorem logDebugRequest_redacts (url : String) (h : QuickFileHeader) (body : Option Json)
    (acc md5 : String) :
    logDebugRequestLines url (setSecrets h acc md5) body = logDebugRequestLines url h body ∧
    (safeRequestHeader h).Authentication.AccNumber = "***REDACTED***" ∧
    (safeRequestHeader h).Authentication.MD5Value = "***REDACTED***" ∧
    (safeRequestHeader h).Authentication.ApplicationID = h.Authentication.ApplicationID ∧
    (safeRequestHeader h).MessageType = h.MessageType ∧
    (safeRequestHeader h).SubmissionNumber = h.SubmissionNumber ∧
    (safeRequestHeader h).TestMode = h.TestMode :=
  ⟨rfl, rfl, rfl, rfl, rfl, rfl, rfl⟩

end QuickFile
